import Mathlib

/-!
Verification of the GraphZip streaming graph-pattern compressor
(`compressor/compress.py`) against its natural-language specification.

The Python code is shallowly embedded: graphs are labelled (multi-)graph
values with vertices and edges kept in insertion order, the compressor
state is a structure mirroring the fields of the `Compressor` class, and
every method that the claims mention is translated into an executable
Lean function.  Python strings are modelled as lists of characters,
Python `int` scores as `Int`, and fallible code returns `Except`.

The external igraph primitives (`isomorphic_vf2`,
`get_subisomorphisms_vf2`, `incident`, `are_connected`) are not part of
the repository; they are modelled from the spec's contract for them
(§4.1, §4.2) and from the source's own comments about their behaviour,
as documented at each definition.
-/

namespace GraphZip

/-- Python strings are modelled as lists of characters. -/
abbrev PyStr := List Char

/-! ## The graph primitive (igraph `Graph` as used by `compress.py`)

A labelled graph holds, in insertion order, a name and an integer label
per vertex and `(source, target, label)` triples for edges (spec §3:
labels are non-negative integers; endpoints are zero-based vertex
positions).  Vertices created by `add_vertex(label=...)` carry the empty
name; the parser's batch-graph vertices carry their vertex-id string as
name (igraph's first positional `add_vertex` argument). -/
structure Graph where
  directed : Bool
  names : List PyStr
  vlabels : List Nat
  edges : List (Nat × Nat × Nat)
deriving DecidableEq, Repr, Inhabited

def Graph.vcount (g : Graph) : Nat := g.vlabels.length

def Graph.ecount (g : Graph) : Nat := g.edges.length

/-- igraph `add_vertex(label=l)`: append a vertex with a label and no name. -/
def Graph.addVertexL (g : Graph) (l : Nat) : Graph :=
  { g with names := g.names ++ [[]], vlabels := g.vlabels ++ [l] }

/-- igraph `add_vertex(name, label=l)` as used by `safe_add_edge` on the
batch graph. -/
def Graph.addVertexNamed (g : Graph) (nm : PyStr) (l : Nat) : Graph :=
  { g with names := g.names ++ [nm], vlabels := g.vlabels ++ [l] }

/-- igraph `add_edge(u, v, label=l)` on vertex positions. -/
def Graph.addEdge (g : Graph) (u v l : Nat) : Graph :=
  { g with edges := g.edges ++ [(u, v, l)] }

/-- Resolve a vertex name to its position (igraph `vs.find(name=...)`). -/
def Graph.findName (g : Graph) (nm : PyStr) : Option Nat :=
  g.names.findIdx? (fun s => s == nm)

/-- igraph `are_connected(u, v)` on vertex positions: on a directed graph
only an edge u→v counts, on an undirected graph either orientation.
Edge labels are ignored. -/
def Graph.areConnected (g : Graph) (u v : Nat) : Bool :=
  g.edges.any fun e =>
    if g.directed then e.1 == u && e.2.1 == v
    else (e.1 == u && e.2.1 == v) || (e.1 == v && e.2.1 == u)

/-- igraph `incident(v)` with its DEFAULT mode, which is what
`iterate_batch` calls: for a directed graph the default is `mode=OUT`
(outgoing edges only) — the source notes this at the call site
("XXX Incident takes keyword 'mode' when directed, defaults to only OUT
edges (not ALL)") — while for an undirected graph all incident edges are
returned.  Edge positions are returned in increasing order. -/
def Graph.incident (g : Graph) (v : Nat) : List Nat :=
  (List.range g.ecount).filter fun i =>
    let e := g.edges.getD i (0, 0, 0)
    if g.directed then e.1 == v else e.1 == v || e.2.1 == v

/-- Modelled from the spec: §4.1 requires the incidence operation used by
the batch iterator to return ALL edges incident to a vertex in both
directions, also on directed graphs ("the ALL semantics"). -/
def Graph.incidentAll (g : Graph) (v : Nat) : List Nat :=
  (List.range g.ecount).filter fun i =>
    let e := g.edges.getD i (0, 0, 0)
    e.1 == v || e.2.1 == v

/-- Whether `g` has an edge u→v carrying label `l` (on an undirected
graph, in either orientation). -/
def Graph.hasLEdge (g : Graph) (u v l : Nat) : Bool :=
  g.edges.any fun e =>
    if g.directed then e == (u, v, l)
    else e == (u, v, l) || e == (v, u, l)

/-! ## The isomorphism engine

Modelled from the spec: §4.2 specifies the contract of the external
VF2 engine (igraph), which is not code of this repository.
`enumerate_subisomorphisms` yields every injective map from the
pattern's vertex positions into the host's vertex positions that
preserves vertex labels and sends every pattern edge to a host edge with
the same label (non-induced embedding; direction respected on directed
graphs); `is_isomorphic` is a label-preserving bijection with edge
correspondence in both directions.  The enumeration order is
deterministic (the spec leaves it unspecified). -/

/-- All injective sequences of length `k` drawn from `avail`, in a fixed
deterministic order. -/
def pick : Nat → List Nat → List (List Nat)
  | 0, _ => [[]]
  | k' + 1, avail => avail.flatMap fun a => (pick k' (avail.erase a)).map (a :: ·)

/-- Whether `f` (a candidate map, pattern position `i` ↦ `f[i]`) embeds
pattern `p` into host `G` preserving vertex and edge labels. -/
def subisoOK (G p : Graph) (f : List Nat) : Bool :=
  ((List.range p.vcount).all fun i =>
      p.vlabels.getD i 0 == G.vlabels.getD (f.getD i 0) 0) &&
  (p.edges.all fun e => G.hasLEdge (f.getD e.1 0) (f.getD e.2.1 0) e.2.2)

/-- igraph `G.get_subisomorphisms_vf2(p, color1, color2, edge_color1,
edge_color2)` with the label vectors as colours (spec §4.2). -/
def get_subisomorphisms (G p : Graph) : List (List Nat) :=
  (pick p.vcount (List.range G.vcount)).filter (subisoOK G p)

/-- The label-blind embedding check used when `match_strict` is false
(`get_subisomorphisms_vf2` without colours). -/
def subisoOKNoLabel (G p : Graph) (f : List Nat) : Bool :=
  p.edges.all fun e => G.areConnected (f.getD e.1 0) (f.getD e.2.1 0)

def get_subisomorphisms_nolabel (G p : Graph) : List (List Nat) :=
  (pick p.vcount (List.range G.vcount)).filter (subisoOKNoLabel G p)

/-- Whether the bijection candidate `f` witnesses a label-preserving
isomorphism between `g1` and `g2` (edge correspondence both ways). -/
def isoUnder (g1 g2 : Graph) (f : List Nat) : Bool :=
  ((List.range g1.vcount).all fun i =>
      g1.vlabels.getD i 0 == g2.vlabels.getD (f.getD i 0) 0) &&
  (g1.edges.all fun e => g2.hasLEdge (f.getD e.1 0) (f.getD e.2.1 0) e.2.2) &&
  (g2.edges.all fun e =>
      g1.hasLEdge (List.indexOf e.1 f) (List.indexOf e.2.1 f) e.2.2)

/-- igraph `g1.isomorphic_vf2(g2, color1, color2, edge_color1,
edge_color2)` with the label vectors as colours (spec §4.2). -/
def isomorphic_vf2 (g1 g2 : Graph) : Bool :=
  g1.vcount == g2.vcount &&
  (pick g1.vcount (List.range g2.vcount)).any (isoUnder g1 g2)

/-! ## Compressor state and the pattern dictionary -/

/-- A pattern dictionary entry `(graph, count, score)`. -/
structure PEntry where
  graph : Graph
  count : Nat
  score : Int
deriving DecidableEq, Repr, Inhabited

/-- The fields of the `Compressor` class.  `dict_size` is `Option Nat`:
`none` models the default `math.inf` (an unbounded dictionary, for which
the trim test `len(P) > 2*inf` is never true).  `vid_to_label` is the
insertion-ordered Python dict from vertex-id strings to labels. -/
structure CState where
  _directed : Bool
  _compress_count : Nat
  _lines_read : Nat
  _dict_trimmed : Nat
  dict_size : Option Nat
  batch_size : Nat
  match_strict : Bool
  add_implicit_vertices : Bool
  vid_to_label : List (PyStr × Nat)
  label_history_per_file : Bool
  P : List PEntry
deriving DecidableEq, Repr, Inhabited

/-- `Compressor.__init__(batch_size, dict_size, directed)`. -/
def initCompressor (batch_size : Nat) (dict_size : Option Nat)
    (directed : Bool) : CState :=
  { _directed := directed, _compress_count := 0, _lines_read := 0,
    _dict_trimmed := 0, dict_size := dict_size, batch_size := batch_size,
    match_strict := true, add_implicit_vertices := true,
    vid_to_label := [], label_history_per_file := false, P := [] }

/-- Python dict assignment `m[k] = v` (replaces in place, preserving
insertion order; appends a new binding at the end). -/
def dictInsert (m : List (PyStr × Nat)) (k : PyStr) (v : Nat) :
    List (PyStr × Nat) :=
  match m with
  | [] => [(k, v)]
  | (k', v') :: rest =>
    if k' == k then (k, v) :: rest else (k', v') :: dictInsert rest k v

/-- Python dict lookup `m[k]`, `none` when the key is absent (KeyError). -/
def dictFind (m : List (PyStr × Nat)) (k : PyStr) : Option Nat :=
  match m with
  | [] => none
  | (k', v') :: rest => if k' == k then some v' else dictFind rest k

/-- `Compressor.get_score`: `(len(graph.es) - 1) * (count - 1)` over
Python integers. -/
def get_score (graph : Graph) (count : Nat) : Int :=
  ((graph.ecount : Int) - 1) * ((count : Int) - 1)

/-- The comparison under which Python's
`sorted(self.P, key=itemgetter(2), reverse=True)` orders entries:
descending score.  CPython's sort is stable and `reverse=True` keeps
equal-score entries in their original relative order, which is exactly
the behaviour of `List.mergeSort` with this comparison. -/
def scoreGe (a b : PEntry) : Bool := b.score ≤ a.score

/-- `Compressor.trim_dictionary` with the default threshold multiplier 2:
if `len(P) > 2 * dict_size`, count the trim, sort by score descending
(stable) and delete everything past position `dict_size`. -/
def trim_dictionary (st : CState) : CState :=
  match st.dict_size with
  | none => st
  | some θ =>
    if 2 * θ < st.P.length then
      { st with _dict_trimmed := st._dict_trimmed + 1,
                P := (st.P.mergeSort scoreGe).take θ }
    else st

/-- The per-entry test of `Compressor.update_dictionary`: the `|V|`/`|E|`
equality pre-check (`len(c1) != len(c2) or len(c1_edge) != len(c2_edge)`)
followed by the coloured isomorphism test. -/
def entryMatches (pattern : Graph) (e : PEntry) : Bool :=
  (e.graph.vcount == pattern.vcount && e.graph.ecount == pattern.ecount) &&
  isomorphic_vf2 e.graph pattern

/-- The scan loop of `Compressor.update_dictionary`: walk the entries in
order; at the first match replace the entry by
`(graph, count+1, get_score(graph, count+1))` and stop; `none` when no
entry matches. -/
def scanBump (P : List PEntry) (pattern : Graph) : Option (List PEntry) :=
  match P with
  | [] => none
  | e :: rest =>
    if entryMatches pattern e then
      some ({ graph := e.graph, count := e.count + 1,
              score := get_score e.graph (e.count + 1) } :: rest)
    else
      match scanBump rest pattern with
      | some rest' => some (e :: rest')
      | none => none

/-- `Compressor.update_dictionary`: bump the first isomorphic entry and
return; otherwise trim, then append `(pattern, 1, get_score(pattern, 1))`. -/
def update_dictionary (st : CState) (pattern : Graph) : CState :=
  match scanBump st.P pattern with
  | some P' => { st with P := P' }
  | none =>
    let st' := trim_dictionary st
    { st' with
        P := st'.P ++ [{ graph := pattern, count := 1,
                         score := get_score pattern 1 }] }

/-! ## The batch iterator (`Compressor.iterate_batch`)

The `taken` dict of the source is keyed by igraph edge objects; the spec
(§9, open questions) resolves the identity semantics of that test as
identity by edge position within the batch graph, which is how `taken`
is modelled here: a list of batch edge positions. -/

/-- The position of batch vertex `x` in the embedding `vmap`
(`Gv_to_pv[x]`, the inverse of the embedding map). -/
def invMap (vmap : List Nat) (x : Nat) : Nat := List.indexOf x vmap

/-- The body of the `for Ge in G_edges` loop of `iterate_batch`: examine
one batch edge (by position `ei`) incident to a mapped vertex, extend
the candidate pattern `p_new` when the edge leaves the embedding's image
or closes a cycle, and mark the edge taken.  `safe_add_edge` on the
pattern copy reduces to a duplicate-suppressed `add_edge`, since both
endpoints already exist there. -/
def extendWithEdge (p G : Graph) (vmap : List Nat)
    (acc : Option Graph × List Nat) (ei : Nat) : Option Graph × List Nat :=
  let pNewOpt := acc.1
  let taken := acc.2
  let e := G.edges.getD ei (0, 0, 0)
  let a := e.1
  let b := e.2.1
  let l := e.2.2
  let pNewOpt' :=
    if ¬ vmap.contains a then
      -- the source endpoint is not in the mapping: add the vertex, then
      -- an edge from the new vertex to the mapped counterpart of b
      let pc := pNewOpt.getD p
      let pc1 := pc.addVertexL (G.vlabels.getD a 0)
      some (pc1.addEdge (pc1.vcount - 1) (invMap vmap b) l)
    else if ¬ vmap.contains b then
      let pc := pNewOpt.getD p
      let pc1 := pc.addVertexL (G.vlabels.getD b 0)
      some (pc1.addEdge (invMap vmap a) (pc1.vcount - 1) l)
    else
      -- both endpoints mapped: close the cycle if p lacks the edge
      let ps := invMap vmap a
      let pt := invMap vmap b
      if ¬ p.areConnected ps pt then
        let pc := pNewOpt.getD p
        some (if pc.areConnected ps pt then pc else pc.addEdge ps pt l)
      else pNewOpt
  (pNewOpt', ei :: taken)

/-- The body of the `for p_v, G_v in enumerate(v_map)` loop: skip the
vertex unless the batch has more incident edges there than the pattern
does, otherwise examine every incident batch edge. -/
def extendAtVertex (p G : Graph) (vmap : List Nat)
    (acc : Option Graph × List Nat) (p_v : Nat) : Option Graph × List Nat :=
  let G_inc := G.incident (vmap.getD p_v 0)
  let p_inc := p.incident p_v
  if G_inc.length ≤ p_inc.length then acc
  else G_inc.foldl (extendWithEdge p G vmap) acc

/-- Process one embedding `vmap` of pattern `p` into the batch `G`:
returns the extended pattern, if any extension happened, and the
enlarged taken set. -/
def extendEmbedding (p G : Graph) (taken : List Nat) (vmap : List Nat) :
    Option Graph × List Nat :=
  (List.range vmap.length).foldl (extendAtVertex p G vmap) (none, taken)

/-- Process one dictionary pattern: enumerate its embeddings into the
batch (none at all under `match_strict` when `len(p.es) >= len(G.es)`)
and extend each, collecting the extended patterns in order. -/
def processPattern (st : CState) (G : Graph)
    (acc : List Graph × List Nat) (p : Graph) : List Graph × List Nat :=
  let maps :=
    if st.match_strict then
      if G.ecount ≤ p.ecount then [] else get_subisomorphisms G p
    else get_subisomorphisms_nolabel G p
  maps.foldl
    (fun acc2 vmap =>
      let r := extendEmbedding p G acc2.2 vmap
      match r.1 with
      | some pNew => (acc2.1 ++ [pNew], r.2)
      | none => (acc2.1, r.2))
    acc

/-- The residue step's fresh two-vertex, one-edge graph built from a
batch edge (`Graph(directed=self._directed)` plus two `add_vertex` and
an `add_edge`). -/
def single_edge_graph (directed : Bool) (G : Graph)
    (e : Nat × Nat × Nat) : Graph :=
  { directed := directed, names := [[], []],
    vlabels := [G.vlabels.getD e.1 0, G.vlabels.getD e.2.1 0],
    edges := [(0, 1, e.2.2)] }

/-- `Compressor.iterate_batch`: return at once on an edgeless batch;
otherwise match and extend every dictionary pattern (reading the
snapshot of P), install the extensions through `update_dictionary`, and
cover every batch edge not marked taken by a single-edge pattern. -/
def iterate_batch (st : CState) (G : Graph) : CState :=
  if G.ecount = 0 then st
  else
    let np := st.P.foldl (fun acc entry => processPattern st G acc entry.graph)
      ([], [])
    let st1 := np.1.foldl update_dictionary st
    (List.range G.ecount).foldl
      (fun s ei =>
        if np.2.contains ei then s
        else update_dictionary s
          (single_edge_graph st._directed G (G.edges.getD ei (0, 0, 0))))
      st1

/-! ## The parser and stream driver (`parse_line`, `compress_file`) -/

/-- The Python exceptions `parse_line` and its callees can raise. -/
inductive PyErr where
  | indexError
  | valueError
  | keyError
deriving DecidableEq, Repr

deriving instance DecidableEq for Except

/-- Python whitespace (`str.split()` with no separator). -/
def isSpaceChar (c : Char) : Bool :=
  c == ' ' || c == '\t' || c == '\n' || c == '\r' || c == '\x0b' || c == '\x0c'

/-- `line.strip().split()`: split on whitespace runs, producing no empty
tokens (stripping first makes no difference to `split()`). -/
def tokenizeGo (cur : PyStr) : PyStr → List PyStr
  | [] => if cur = [] then [] else [cur.reverse]
  | c :: rest =>
    if isSpaceChar c then
      if cur = [] then tokenizeGo [] rest
      else cur.reverse :: tokenizeGo [] rest
    else tokenizeGo (c :: cur) rest

def tokenize (s : PyStr) : List PyStr := tokenizeGo [] s

/-- `int(token)` for the label fields.  Labels are non-negative integers
(spec §3), so decimal digit strings; anything else is a ValueError. -/
def parseNatTok (s : PyStr) : Option Nat :=
  if s.isEmpty then none
  else if s.all Char.isDigit then
    some (s.foldl (fun n c => 10 * n + (c.toNat - '0'.toNat)) 0)
  else none

/-- `Compressor.safe_add_edge` on the batch graph (vertices addressed by
name): make sure both endpoints exist, adding a missing one with the
label from `vid_to_label` (a missing mapping is Python's KeyError), then
add the edge unless the endpoints are already connected. -/
def safe_add_edge (st : CState) (G : Graph) (src dst : PyStr) (l : Nat) :
    Except PyErr Graph := do
  let G1 ←
    match G.findName src with
    | some _ => pure G
    | none =>
      match dictFind st.vid_to_label src with
      | some lab => pure (G.addVertexNamed src lab)
      | none => Except.error PyErr.keyError
  let G2 ←
    match G1.findName dst with
    | some _ => pure G1
    | none =>
      match dictFind st.vid_to_label dst with
      | some lab => pure (G1.addVertexNamed dst lab)
      | none => Except.error PyErr.keyError
  match G2.findName src, G2.findName dst with
  | some ui, some vi =>
    if G2.areConnected ui vi then pure G2 else pure (G2.addEdge ui vi l)
  | _, _ => Except.error PyErr.valueError

/-- `Compressor.parse_line`.  Faithful to the source: only the exact
empty string is ignored by the `line_str == ''` guard; any other line
is stripped and split, and `raw[0]` on a whitespace-only line raises
IndexError.  `%` comments, `v` lines and `e`/`u`/`d` lines follow the
source's branches, including duplicate-edge suppression and the
implicit-vertex policy. -/
def parse_line (st : CState) (G : Graph) (line_str : PyStr) :
    Except PyErr (CState × Graph) :=
  if line_str = [] then Except.ok (st, G)
  else
    match tokenize line_str with
    | [] => Except.error PyErr.indexError
    | t0 :: rest =>
      if t0 = ['%'] then Except.ok (st, G)
      else if t0 = ['v'] then
        match rest with
        | vid :: lab :: _ =>
          match parseNatTok lab with
          | some l =>
            Except.ok ({ st with vid_to_label := dictInsert st.vid_to_label vid l }, G)
          | none => Except.error PyErr.valueError
        | _ => Except.error PyErr.indexError
      else if t0 = ['e'] ∨ t0 = ['u'] ∨ t0 = ['d'] then
        match rest with
        | src :: dst :: lab :: _ =>
          match parseNatTok lab with
          | some l =>
            match G.findName src, G.findName dst with
            | some ui, some vi =>
              -- are_connected succeeds: skip a duplicate edge, else add
              if G.areConnected ui vi then Except.ok (st, G)
              else Except.ok (st, G.addEdge ui vi l)
            | _, _ =>
              -- are_connected raises ValueError (a vertex DNE)
              if st.add_implicit_vertices then
                match safe_add_edge st G src dst l with
                | Except.ok G' => Except.ok (st, G')
                | Except.error e => Except.error e
              else Except.error PyErr.valueError
          | none => Except.error PyErr.valueError
        | _ => Except.error PyErr.indexError
      else Except.error PyErr.valueError

/-- The fresh stream object `Graph(directed=self._directed)`. -/
def emptyBatch (directed : Bool) : Graph :=
  { directed := directed, names := [], vlabels := [], edges := [] }

/-- Whether a raw input line begins with the character `e`
(`line[0] == 'e'` in `compress_file`). -/
def isELine (line : PyStr) : Bool :=
  match line with
  | 'e' :: _ => true
  | _ => false

/-- One iteration of `compress_file`'s read loop: bump the edge counter
on lines whose first character is `e`, parse the line into the batch
graph, and when the counter is positive and divisible by `batch_size`
run the batch iterator and start a fresh batch graph. -/
def compress_step (acc : CState × Graph × Nat) (line : PyStr) :
    Except PyErr (CState × Graph × Nat) :=
  match parse_line acc.1 acc.2.1 line with
  | Except.error e => Except.error e
  | Except.ok (st', G') =>
    let ec' := if isELine line then acc.2.2 + 1 else acc.2.2
    if ec' = 0 ∨ ec' % st'.batch_size ≠ 0 then Except.ok (st', G', ec')
    else Except.ok (iterate_batch st' G', emptyBatch st'._directed, ec')

/-- The read loop of `compress_file` over the file's lines, starting
from a fresh batch graph and a zero edge counter, after bumping
`_compress_count`. -/
def compress_lines_aux (st : CState) (lines : List PyStr) :
    Except PyErr (CState × Graph × Nat) :=
  let st0 := { st with _compress_count := st._compress_count + 1 }
  lines.foldlM compress_step (st0, emptyBatch st0._directed, 0)

/-- `Compressor.compress_file` on the list of input lines: the read
loop, the leftover batch, and the per-file label-map teardown. -/
def compress_file (st : CState) (lines : List PyStr) : Except PyErr CState :=
  match compress_lines_aux st lines with
  | Except.error e => Except.error e
  | Except.ok (st1, G, _) =>
    let st2 := if G.ecount ≠ 0 then iterate_batch st1 G else st1
    Except.ok (if st2.label_history_per_file then { st2 with vid_to_label := [] }
               else st2)

/-! ## Spec-side characterisations and concrete scenario inputs -/

/-- Modelled from the spec: trimming sorts "by score descending ...
ties are broken by existing insertion order (stable sort)" (§4.3, §8
law 8).  Entries are tagged with their insertion position and ordered by
the comparison that breaks score ties by position. -/
def ranked_entries (P : List PEntry) : List PEntry :=
  (P.enum.mergeSort (List.enumLE scoreGe)).map (·.2)

/-- The claimed pattern-entry invariant (spec §3, §8 invariant 1):
`count ≥ 1` and `score = (|E(graph)| − 1) · (count − 1)`. -/
def entryOK (e : PEntry) : Bool :=
  1 ≤ e.count &&
  e.score == ((e.graph.ecount : Int) - 1) * ((e.count : Int) - 1)

/-- A fresh two-vertex single-edge graph with vertex labels `l1`, `l2`
and edge label `el`, as the residue step builds. -/
def edgeG (l1 l2 el : Nat) : Graph :=
  ⟨false, [[], []], [l1, l2], [(0, 1, el)]⟩

/-- Scenario 5's dictionary pattern: the 2-edge path a—b—c, all vertex
labels 1, edge labels 9. -/
def c5Path : Graph := ⟨false, [[], [], []], [1, 1, 1], [(0, 1, 9), (1, 2, 9)]⟩

/-- Scenario 5's batch: the triangle a—b, b—c, c—a. -/
def c5Tri : Graph :=
  ⟨false, [[], [], []], [1, 1, 1], [(0, 1, 9), (1, 2, 9), (0, 2, 9)]⟩

/-- Scenario 5's compressor state: the path is in the dictionary with
count 1. -/
def c5State : CState := { initCompressor 10 none false with P := [⟨c5Path, 1, 0⟩] }

/-- Scenario 1's input lines (spec §8). -/
def c6Lines : List PyStr :=
  ["v 1 1", "v 2 1", "v 3 1", "e 1 2 9", "e 2 3 9", "e 1 3 9"].map String.toList

/-- Scenario 1's compressor: empty dictionary, batch size α = 3. -/
def c6State : CState := initCompressor 3 none false

/-- A dictionary at size 2·θ (θ = 1) holding two non-isomorphic
single-edge patterns: the next genuinely new pattern is appended without
a trim. -/
def c3State : CState :=
  { initCompressor 10 (some 1) false with
      P := [⟨edgeG 1 1 9, 1, 0⟩, ⟨edgeG 2 2 9, 1, 0⟩] }

/-- A directed batch graph with one outgoing edge 0→1 and one incoming
edge 2→0 at vertex 0. -/
def c7Batch : Graph := ⟨true, [[], [], []], [1, 1, 1], [(0, 1, 9), (2, 0, 9)]⟩

/-- Input whose third edge line repeats an existing edge and whose last
two edge lines use the `u` prefix. -/
def c8Lines : List PyStr :=
  ["v 1 1", "v 2 1", "v 3 1", "e 1 2 9", "e 1 2 9", "u 2 3 9", "u 1 3 9"].map
    String.toList

/-- A default compressor (α = 10, θ = ∞) for the driver runs. -/
def c8State : CState := initCompressor 10 none false

/-! ## Claim theorems -/

/-- C10: invoking the batch iterator on a batch graph with zero edges
returns immediately and leaves the whole compressor state — the pattern
dictionary, the counters and the vid-to-label map — unchanged. -/
theorem iterate_batch_zero_edges (st : CState) (G : Graph)
    (h : G.ecount = 0) : iterate_batch st G = st := by
  unfold iterate_batch
  simp [h]

theorem iterate_batch_zero_edges_witness :
    iterate_batch c8State (emptyBatch false) = c8State :=
  iterate_batch_zero_edges c8State (emptyBatch false) rfl

/-- C7: in the extension step, the incident edges examined around a
mapped vertex of a DIRECTED batch graph are only the outgoing ones
(igraph's default `mode=OUT`), not the ALL semantics the claim states:
at vertex 0 of a directed batch with edges 0→1 and 2→0, the examined
edge list `incident 0` misses the incoming edge (position 1) that the
spec's ALL semantics (`incidentAll`) includes. -/
theorem incident_directed_misses_incoming :
    c7Batch.incident 0 = [0] ∧ c7Batch.incidentAll 0 = [0, 1] ∧
    c7Batch.incident 0 ≠ c7Batch.incidentAll 0 := by decide

/-- C9: `parse_line` does NOT ignore an actual blank input line: a line
consisting of the newline character raises IndexError (the `raw[0]`
lookup after `strip().split()` yields no tokens, and the guard
`line_str == ''` only catches the exact empty string, which file
iteration never produces), for every compressor state and batch
graph. -/
theorem parse_line_blank_line (st : CState) (G : Graph) :
    parse_line st G ['\n'] = Except.error PyErr.indexError ∧
    parse_line st G [' ', '\n'] = Except.error PyErr.indexError ∧
    parse_line st G [] = Except.ok (st, G) := by
  refine ⟨rfl, rfl, ?_⟩
  unfold parse_line
  simp

/-! ## Dictionary lemmas -/

/-- The bumped form of a matched entry: count incremented, score
recomputed. -/
def bumpEntry (e : PEntry) : PEntry :=
  { graph := e.graph, count := e.count + 1,
    score := get_score e.graph (e.count + 1) }

theorem scanBump_eq_findIdx (g : Graph) : ∀ (P : List PEntry),
    scanBump P g =
      (P.findIdx? (entryMatches g)).map fun i =>
        P.set i (bumpEntry (P.getD i default))
  | [] => rfl
  | e :: rest => by
    rw [scanBump]
    by_cases h : entryMatches g e
    · simp [h, bumpEntry]
    · simp only [h, if_neg, List.findIdx?_cons, Bool.false_eq_true, if_false,
        List.findIdx?_start_succ]
      rw [scanBump_eq_findIdx g rest]
      cases hfi : rest.findIdx? (entryMatches g) with
      | none => simp
      | some i => simp

theorem scanBump_length {g : Graph} : ∀ {P P' : List PEntry},
    scanBump P g = some P' → P'.length = P.length := by
  intro P
  induction P with
  | nil => intro P' h; simp [scanBump] at h
  | cons e rest ih =>
    intro P' h
    rw [scanBump] at h
    by_cases hm : entryMatches g e
    · simp only [hm, if_pos] at h
      cases h
      simp
    · simp only [hm, Bool.false_eq_true, if_false] at h
      cases hr : scanBump rest g with
      | none => rw [hr] at h; cases h
      | some rest' =>
        rw [hr] at h
        cases h
        simp [ih hr]

theorem trim_dict_size (st : CState) :
    (trim_dictionary st).dict_size = st.dict_size := by
  unfold trim_dictionary
  cases h : st.dict_size with
  | none => exact h
  | some θ =>
    dsimp only
    split
    · rfl
    · exact h

theorem update_dict_size (st : CState) (g : Graph) :
    (update_dictionary st g).dict_size = st.dict_size := by
  unfold update_dictionary
  cases scanBump st.P g with
  | some P' => rfl
  | none => dsimp only; rw [trim_dict_size]

theorem trim_P_length_le {st : CState} {θ : Nat} (h : st.dict_size = some θ) :
    (trim_dictionary st).P.length ≤ 2 * θ := by
  unfold trim_dictionary
  rw [h]
  dsimp only
  split
  · simp only [List.length_take]
    omega
  · omega

theorem update_P_length_bound {st : CState} {θ : Nat} {g : Graph}
    (hd : st.dict_size = some θ) (h : st.P.length ≤ 2 * θ + 1) :
    (update_dictionary st g).P.length ≤ 2 * θ + 1 := by
  unfold update_dictionary
  cases hs : scanBump st.P g with
  | some P' =>
    dsimp only
    rw [scanBump_length hs]
    exact h
  | none =>
    have ht := trim_P_length_le hd
    dsimp only
    rw [List.length_append]
    simp only [List.length_cons, List.length_nil]
    omega

theorem foldl_update_bound {θ : Nat} : ∀ (l : List Graph) (st : CState),
    st.dict_size = some θ → st.P.length ≤ 2 * θ + 1 →
    (l.foldl update_dictionary st).dict_size = some θ ∧
    (l.foldl update_dictionary st).P.length ≤ 2 * θ + 1
  | [], st, hd, h => ⟨hd, h⟩
  | g :: rest, st, hd, h => by
    rw [List.foldl_cons]
    exact foldl_update_bound rest (update_dictionary st g)
      ((update_dict_size st g).trans hd) (update_P_length_bound hd h)

theorem foldl_resid_bound {θ : Nat} (cond : Nat → Bool) (mk : Nat → Graph) :
    ∀ (l : List Nat) (st : CState),
    st.dict_size = some θ → st.P.length ≤ 2 * θ + 1 →
    ((l.foldl (fun s ei => if cond ei then s else update_dictionary s (mk ei))
        st).P.length ≤ 2 * θ + 1)
  | [], _, _, h => h
  | ei :: rest, st, hd, h => by
    rw [List.foldl_cons]
    by_cases hc : cond ei
    · simpa only [hc, if_pos] using foldl_resid_bound cond mk rest st hd h
    · simp only [hc, Bool.false_eq_true, if_false]
      exact foldl_resid_bound cond mk rest (update_dictionary st (mk ei))
        ((update_dict_size st (mk ei)).trans hd) (update_P_length_bound hd h)

theorem trim_all_entryOK {st : CState} (h : st.P.all entryOK = true) :
    (trim_dictionary st).P.all entryOK = true := by
  unfold trim_dictionary
  cases st.dict_size with
  | none => exact h
  | some θ =>
    dsimp only
    split
    · rw [List.all_eq_true] at h ⊢
      intro e he
      exact h e (List.mem_mergeSort.1 (List.mem_of_mem_take he))
    · exact h

theorem scanBump_all_entryOK {g : Graph} : ∀ {P P' : List PEntry},
    scanBump P g = some P' → P.all entryOK = true → P'.all entryOK = true := by
  intro P
  induction P with
  | nil => intro P' h _; simp [scanBump] at h
  | cons e rest ih =>
    intro P' h hall
    rw [List.all_cons, Bool.and_eq_true] at hall
    rw [scanBump] at h
    by_cases hm : entryMatches g e
    · simp only [hm, if_pos] at h
      cases h
      rw [List.all_cons, Bool.and_eq_true]
      exact ⟨by simp [entryOK, get_score], hall.2⟩
    · simp only [hm, Bool.false_eq_true, if_false] at h
      cases hr : scanBump rest g with
      | none => rw [hr] at h; cases h
      | some rest' =>
        rw [hr] at h
        cases h
        rw [List.all_cons, Bool.and_eq_true]
        exact ⟨hall.1, ih hr hall.2⟩

/-! ## C1 -/

/-- C1: `update_dictionary` scans the entries in order; when some entry
passes the `|V|`/`|E|` pre-check and isomorphism test, the FIRST such
entry has its count incremented by 1 and its score recomputed, and the
rest of the state — every other entry and the trim counter — is
untouched (no trim, no append); when no entry matches, the dictionary is
first trimmed and then `(pattern, 1, get_score(pattern, 1))` is appended
as the last entry. -/
theorem update_dictionary_spec (st : CState) (g : Graph) :
    update_dictionary st g =
      match st.P.findIdx? (entryMatches g) with
      | some i =>
        { st with P := st.P.set i (bumpEntry (st.P.getD i default)) }
      | none =>
        let st' := trim_dictionary st
        { st' with P := st'.P ++ [{ graph := g, count := 1,
                                    score := get_score g 1 }] } := by
  unfold update_dictionary
  rw [scanBump_eq_findIdx]
  cases st.P.findIdx? (entryMatches g) with
  | none => rfl
  | some i => rfl

/-! ## C2 -/

/-- C2: when the dictionary bound θ is finite and `|P| > 2·θ`, trimming
counts one trim and replaces P by the θ highest-scoring entries in
descending score order with ties broken by insertion position
(`ranked_entries`, a stable descending sort); otherwise it leaves the
whole state unchanged. -/
theorem trim_dictionary_spec (st : CState) (θ : Nat)
    (h : st.dict_size = some θ) :
    trim_dictionary st =
      if 2 * θ < st.P.length then
        { st with _dict_trimmed := st._dict_trimmed + 1,
                  P := (ranked_entries st.P).take θ }
      else st := by
  unfold trim_dictionary ranked_entries
  rw [h]
  simp only [List.mergeSort_enum]

/-- A θ = 1 dictionary over the trim threshold (three entries, the
middle one with the top score). -/
def c2State : CState :=
  { initCompressor 10 (some 1) false with
      P := [⟨edgeG 1 1 9, 1, 0⟩, ⟨edgeG 2 2 9, 2, 5⟩, ⟨edgeG 3 3 9, 1, 0⟩] }

theorem trim_dictionary_spec_witness :
    c2State.dict_size = some 1 ∧
    trim_dictionary c2State =
      (if 2 * 1 < c2State.P.length then
        { c2State with _dict_trimmed := c2State._dict_trimmed + 1,
                       P := (ranked_entries c2State.P).take 1 }
      else c2State) :=
  ⟨rfl, trim_dictionary_spec c2State 1 rfl⟩

/-! ## C3 -/

/-- C3 counterexample: with θ = 1 and a dictionary already holding
2·θ = 2 pairwise non-isomorphic entries, a batch containing one new
single-edge pattern appends without trimming (the pre-append trim test
`|P| > 2·θ` fails at `|P| = 2·θ`), so after the batch iterator finishes
processing this batch, `|P| = 3 > 2·θ`. -/
theorem iterate_batch_exceeds_two_theta :
    ¬ ((iterate_batch c3State (edgeG 3 3 9)).P.length ≤ 2 * 1) := by decide

/-- C3 amended: after the batch iterator finishes processing any batch,
`|P| ≤ 2·θ + 1` — trimming runs before the append, so one new entry can
land on top of a dictionary that already holds 2·θ entries. -/
theorem iterate_batch_P_bound (st : CState) (G : Graph) (θ : Nat)
    (hd : st.dict_size = some θ) (h : st.P.length ≤ 2 * θ + 1) :
    (iterate_batch st G).P.length ≤ 2 * θ + 1 := by
  unfold iterate_batch
  by_cases hG : G.ecount = 0
  · simpa [hG] using h
  · simp only [hG, if_false]
    obtain ⟨hd1, h1⟩ := foldl_update_bound
      (st.P.foldl (fun acc entry => processPattern st G acc entry.graph)
        ([], [])).1 st hd h
    exact foldl_resid_bound _ _ _ _ hd1 h1

theorem iterate_batch_P_bound_witness :
    (iterate_batch c3State (edgeG 3 3 9)).P.length ≤ 2 * 1 + 1 :=
  iterate_batch_P_bound c3State (edgeG 3 3 9) 1 rfl (by decide)

/-! ## C4 -/

/-- C4: `update_dictionary` preserves the entry invariant — afterwards
every entry `(g, c, s)` still satisfies `c ≥ 1` and
`s = (|E(g)| − 1) · (c − 1)`. -/
theorem update_dictionary_entry_invariant (st : CState) (g : Graph)
    (h : st.P.all entryOK = true) :
    (update_dictionary st g).P.all entryOK = true := by
  unfold update_dictionary
  cases hs : scanBump st.P g with
  | some P' => exact scanBump_all_entryOK hs h
  | none =>
    dsimp only
    rw [List.all_append]
    rw [trim_all_entryOK h]
    simp [entryOK, get_score]

theorem update_dictionary_entry_invariant_witness :
    (update_dictionary c3State (edgeG 4 4 9)).P.all entryOK = true :=
  update_dictionary_entry_invariant c3State (edgeG 4 4 9) (by decide)

/-! ## C5 -/

/-- C5 counterexample: after the cycle-closure batch, no entry
isomorphic to the 2-edge path has count 2 — the path entry is never
updated, because the batch iterator only feeds `update_dictionary` the
EXTENDED patterns (triangles), and the residue step finds every batch
edge already taken. -/
theorem iterate_batch_cycle_closure_cex :
    ¬ ∃ e ∈ (iterate_batch c5State c5Tri).P,
        isomorphic_vf2 e.graph c5Path = true ∧ e.count = 2 := by decide

/-- C5 amended: with the path a—b—c (count 1) in the dictionary and the
triangle a—b, b—c, c—a as the batch, the batch iterator inserts one
triangle pattern whose count is 6 — one occurrence per embedding of the
path into the triangle, all deduplicated into the single appended
entry — and leaves the path entry unchanged at count 1. -/
theorem iterate_batch_cycle_closure :
    (iterate_batch c5State c5Tri).P = [⟨c5Path, 1, 0⟩, ⟨c5Tri, 6, 10⟩] := by
  decide

/-! ## C6 -/

/-- C6 counterexample: running scenario 1 (empty dictionary, α = 3, the
six triangle lines) produces NO 3-vertex pattern at all: with an empty
dictionary there is nothing to match or extend, so the batch contributes
only single-edge residue patterns. -/
theorem compress_triangle_no_triangle_pattern :
    (compress_file c6State c6Lines).map
        (fun st => st.P.any fun e => e.graph.vcount == 3) =
      Except.ok false := by decide

/-- C6 amended: scenario 1 yields a dictionary with exactly one 2-vertex
single-edge pattern (vertex labels 1, 1, edge label 9) with count 3 and
score 0. -/
theorem compress_triangle_file :
    compress_file c6State c6Lines =
      Except.ok { c6State with
        _compress_count := 1,
        vid_to_label := [(['1'], 1), (['2'], 1), (['3'], 1)],
        P := [⟨edgeG 1 1 9, 3, 0⟩] } := by decide

/-! ## C8 -/

/-- C8 counterexample: on input with a duplicate `e` line and two `u`
lines, the edge counter k ends at 2 — the duplicate `e` line was counted
even though its edge was skipped, and the two `u` lines were not counted
even though their edges were added — while 3 edges were actually added
to the batch graph; so k is not the number of edges actually added. -/
theorem edge_counter_cex :
    (compress_lines_aux c8State c8Lines).map
        (fun r => (r.2.2, r.2.1.ecount)) = Except.ok (2, 3) ∧
    (2 : Nat) ≠ 3 := by decide

theorem compress_step_ec {st : CState} {G : Graph} {ec : Nat}
    {line : PyStr} {trip : CState × Graph × Nat}
    (h : compress_step (st, G, ec) line = Except.ok trip) :
    trip.2.2 = if isELine line then ec + 1 else ec := by
  unfold compress_step at h
  dsimp only at h
  cases hp : parse_line st G line with
  | error e => rw [hp] at h; cases h
  | ok sG =>
    obtain ⟨st', G'⟩ := sG
    rw [hp] at h
    dsimp only at h
    by_cases hc : ((if isELine line then ec + 1 else ec) = 0 ∨
        (if isELine line then ec + 1 else ec) % st'.batch_size ≠ 0)
    · rw [if_pos hc] at h
      injection h with h'
      rw [← h']
    · rw [if_neg hc] at h
      injection h with h'
      rw [← h']

theorem foldlM_compress_step_ec :
    ∀ (lines : List PyStr) (st : CState) (G : Graph) (ec : Nat)
      (res : CState × Graph × Nat),
      lines.foldlM compress_step (st, G, ec) = Except.ok res →
      res.2.2 = ec + lines.countP isELine
  | [], st, G, ec, res, h => by
    simp only [List.foldlM_nil] at h
    cases h
    simp [List.countP_nil]
  | line :: rest, st, G, ec, res, h => by
    rw [List.foldlM_cons] at h
    cases hstep : compress_step (st, G, ec) line with
    | error e => rw [hstep] at h; cases h
    | ok trip =>
      rw [hstep] at h
      have h' : rest.foldlM compress_step (trip.1, trip.2.1, trip.2.2) =
          Except.ok res := h
      have hr := foldlM_compress_step_ec rest trip.1 trip.2.1 trip.2.2 res h'
      have hec := compress_step_ec hstep
      rw [List.countP_cons]
      rw [hr, hec]
      by_cases hl : isELine line
      · simp only [hl, if_pos]
        omega
      · simp [hl]

/-- C8 amended: the edge counter k counts exactly the input lines whose
first character is `e` — duplicate edge lines included, `u`/`d` lines
excluded — and after each successfully parsed line the driver fires the
batch iterator (resetting the batch graph, carrying k over) exactly when
the updated counter satisfies k > 0 and k mod α == 0. -/
theorem compress_step_edge_counter :
    (∀ (lines : List PyStr) (st : CState) (G : Graph) (ec : Nat)
        (res : CState × Graph × Nat),
        lines.foldlM compress_step (st, G, ec) = Except.ok res →
        res.2.2 = ec + lines.countP isELine) ∧
    (∀ (st : CState) (G : Graph) (ec : Nat) (line : PyStr) (st' : CState)
        (G' : Graph),
        parse_line st G line = Except.ok (st', G') →
        compress_step (st, G, ec) line =
          (if (if isELine line then ec + 1 else ec) = 0 ∨
              (if isELine line then ec + 1 else ec) % st'.batch_size ≠ 0
           then Except.ok (st', G', if isELine line then ec + 1 else ec)
           else Except.ok (iterate_batch st' G', emptyBatch st'._directed,
                           if isELine line then ec + 1 else ec))) := by
  constructor
  · exact foldlM_compress_step_ec
  · intro st G ec line st' G' hp
    unfold compress_step
    dsimp only
    rw [hp]

def c8WLine : PyStr := "v 1 1".toList

def c8WState : CState := { c8State with vid_to_label := [(['1'], 1)] }

theorem compress_step_edge_counter_witness :
    ((c8WState, emptyBatch false, (0 : Nat)) : CState × Graph × Nat).2.2 =
      0 + [c8WLine].countP isELine ∧
    compress_step (c8State, emptyBatch false, 0) c8WLine =
      (if (if isELine c8WLine then 0 + 1 else 0) = 0 ∨
          (if isELine c8WLine then 0 + 1 else 0) % c8WState.batch_size ≠ 0
       then Except.ok (c8WState, emptyBatch false,
              if isELine c8WLine then 0 + 1 else 0)
       else Except.ok (iterate_batch c8WState (emptyBatch false),
              emptyBatch c8WState._directed,
              if isELine c8WLine then 0 + 1 else 0)) :=
  ⟨compress_step_edge_counter.1 [c8WLine] c8State (emptyBatch false) 0
      (c8WState, emptyBatch false, 0) (by decide),
   compress_step_edge_counter.2 c8State (emptyBatch false) 0 c8WLine c8WState
      (emptyBatch false) (by decide)⟩

end GraphZip
